import Mathlib

/-!
Verification of the content-addressable deduplication storage core of the
Secure File Vault system, embedded shallowly from the Hono edge-function
source (`POST /upload`, `DELETE /files/:fileId` and their helpers).

The key-value store backing the system (Supabase table accessed through
`kv.get` / `kv.set` / `kv.del`) is modelled as association lists with map
semantics.  JavaScript numbers that take part in arithmetic are modelled as
`Int` (reference counts may be decremented, quota subtraction is floored by
`Math.max(0, ·)`).  Timestamp bookkeeping (`Date.now()`, ISO date strings)
is modelled by an integer clock passed into each request; within a
multi-file upload the clock is advanced per file, modelling a monotonic
clock.  Rate limiting (`checkRateLimit`) and authentication
(`getUserFromToken`) are outside the claims and are not modelled; requests
enter the model already carrying the authenticated caller identity, as the
handlers do after those checks.
-/

namespace Vault4

/-- One hex digit, lower case, as produced by `b.toString(16)`. -/
def hexDigit (n : Nat) : Char :=
  if n = 0 then '0' else if n = 1 then '1' else if n = 2 then '2'
  else if n = 3 then '3' else if n = 4 then '4' else if n = 5 then '5'
  else if n = 6 then '6' else if n = 7 then '7' else if n = 8 then '8'
  else if n = 9 then '9' else if n = 10 then 'a' else if n = 11 then 'b'
  else if n = 12 then 'c' else if n = 13 then 'd' else if n = 14 then 'e'
  else 'f'

/-- `b.toString(16).padStart(2, '0')` for a byte `b < 256`
(entries of a `Uint8Array`). -/
def toHex2 (b : Nat) : String :=
  String.mk [hexDigit (b / 16 % 16), hexDigit (b % 16)]

/-- Embeds `calculateFileHash`.  The source computes the SHA-256 digest of
the bytes and renders it in hex; every claim depends only on the digest
being a deterministic, collision-free function of the content (the spec
assumes negligible collision probability), so the digest is modelled as the
injective hex encoding of the bytes themselves. -/
def calculateFileHash (bytes : List Nat) : String :=
  String.join (bytes.map toHex2)

/-- JavaScript `a.startsWith(b)`, implemented on the underlying character
lists so that it evaluates by kernel reduction. -/
def strStartsWith (a b : String) : Bool :=
  b.data.isPrefixOf a.data

/-- `s.split('/')[0]`: the part of a MIME type before the first slash. -/
def mimeMajor (s : String) : String :=
  String.mk (s.data.takeWhile (fun c => c ≠ '/'))

/-- Embeds `getMimeTypeFromBuffer`: sniffs the leading magic bytes. -/
def getMimeTypeFromBuffer (buffer : List Nat) : String :=
  if buffer.length < 4 then "application/octet-stream"
  else
    let hex := String.join ((buffer.take 4).map toHex2)
    if strStartsWith hex "89504e47" then "image/png"
    else if strStartsWith hex "ffd8ff" then "image/jpeg"
    else if strStartsWith hex "47494638" then "image/gif"
    else if strStartsWith hex "25504446" then "application/pdf"
    else if strStartsWith hex "504b0304" then "application/zip"
    else "application/octet-stream"

/-- The condition under which the upload handler logs a MIME-type mismatch
warning (`declaredMimeType && !declaredMimeType.startsWith(actual.split('/')[0])
&& actual !== 'application/octet-stream'`). -/
def mimeMismatchWarned (declared : String) (bytes : List Nat) : Bool :=
  let actual := getMimeTypeFromBuffer bytes
  decide (declared ≠ "") && !(strStartsWith declared (mimeMajor actual)) &&
    decide (actual ≠ "application/octet-stream")

/-- ContentRecord: the value stored at kv key `file:{hash}` by the upload
handler. -/
structure FileRecord where
  hash : String
  mime_type : String
  size : Int
  storage_path : String
  reference_count : Int
  created_at : Int
deriving DecidableEq, Repr

/-- OwnershipEntry: the value stored at kv key `file_ref:{fileId}`. -/
structure FileRef where
  id : String
  hash : String
  filename : String
  mime_type : String
  size : Int
  upload_date : Int
  uploader_id : String
  uploader_name : String
  is_public : Bool
  folder_id : Option String
  tags : List String
  storage_path : String
  download_count : Int
  is_deduplicated : Bool
  reference_count : Int
deriving DecidableEq, Repr

/-- QuotaRecord: the storage-accounting part of the value stored at kv key
`quota:{userId}` (the rate-limit fields of the same record are not part of
the storage core and are not modelled). -/
structure Quota where
  storage_used : Int
  storage_limit : Int
deriving DecidableEq, Repr

/-- Association-list lookup with first-match semantics (`kv.get`). -/
def kvGet {α : Type} (l : List (String × α)) (k : String) : Option α :=
  match l with
  | [] => none
  | p :: rest => if p.1 = k then some p.2 else kvGet rest k

/-- Association-list removal (`kv.del`): drops every binding of the key. -/
def kvDel {α : Type} (l : List (String × α)) (k : String) : List (String × α) :=
  match l with
  | [] => []
  | p :: rest => if p.1 = k then kvDel rest k else p :: kvDel rest k

/-- Association-list upsert with map semantics (`kv.set` on a unique-key
table): replaces the first binding of the key, dropping any later
duplicates, or appends a fresh binding. -/
def kvSet {α : Type} (l : List (String × α)) (k : String) (v : α) :
    List (String × α) :=
  match l with
  | [] => [(k, v)]
  | p :: rest => if p.1 = k then (k, v) :: kvDel rest k else p :: kvSet rest k v

/-- The persisted state the storage core mutates: the three kv collections
plus the set of object paths present in the storage bucket. -/
structure Vault where
  files : List (String × FileRecord)
  fileRefs : List (String × FileRef)
  quotas : List (String × Quota)
  storage : List String
deriving DecidableEq, Repr

/-- One file of an upload form: its client-declared name, declared MIME type
(`file.type`, empty string when the browser supplies none) and raw bytes. -/
structure UploadFileInput where
  name : String
  type : String
  bytes : List Nat
deriving DecidableEq, Repr

/-- One call to `POST /upload`: the authenticated caller, the display name
read from the caller's user record, the form fields, the request clock and
the files of the batch. -/
structure UploadRequest where
  userId : String
  userName : String
  tags : List String
  folderId : Option String
  isPublic : Bool
  now : Int
  files : List UploadFileInput
deriving DecidableEq, Repr

/-- The observable outcome of `POST /upload`: HTTP 400 (no files),
HTTP 413 (quota exceeded, with the limit and used bytes reported in the
error message) or HTTP 200 with the created ownership entries. -/
inductive UploadResult where
  | noFiles : UploadResult
  | quotaExceeded (limit used : Int) : UploadResult
  | ok (files : List FileRef) : UploadResult
deriving DecidableEq, Repr

/-- Whether an upload outcome is the HTTP 200 success response. -/
def UploadResult.isOk : UploadResult → Bool
  | .ok _ => true
  | _ => false

/-- The per-file body of the upload loop after the quota check has passed:
deduplication lookup, conditional storage write and ContentRecord creation,
OwnershipEntry creation and reference-count increment.  Returns the created
entry, the updated running total of newly stored bytes and the updated
state. -/
def processFile (userId userName : String) (tags : List String)
    (folderId : Option String) (isPublic : Bool) (now : Int)
    (f : UploadFileInput) (totalSize : Int) (s : Vault) :
    FileRef × Int × Vault :=
  let fileSize : Int := f.bytes.length
  let fileHash := calculateFileHash f.bytes
  let isDeduplicated := (kvGet s.files fileHash).isSome
  let step : FileRecord × Int × Vault :=
    match kvGet s.files fileHash with
    | some r => (r, totalSize, s)
    | none =>
      let newRec : FileRecord :=
        { hash := fileHash
          mime_type := if f.type = "" then getMimeTypeFromBuffer f.bytes else f.type
          size := fileSize
          storage_path := fileHash
          reference_count := 0
          created_at := now }
      (newRec, totalSize + fileSize,
        { s with
            storage := if fileHash ∈ s.storage then s.storage else fileHash :: s.storage
            files := kvSet s.files fileHash newRec })
  let rec0 := step.1
  let totalSize1 := step.2.1
  let s1 := step.2.2
  let fileId := userId ++ ":" ++ fileHash ++ ":" ++ toString now
  let fref : FileRef :=
    { id := fileId
      hash := fileHash
      filename := f.name
      mime_type := rec0.mime_type
      size := rec0.size
      upload_date := now
      uploader_id := userId
      uploader_name := userName
      is_public := isPublic
      folder_id := folderId
      tags := tags
      storage_path := rec0.storage_path
      download_count := 0
      is_deduplicated := isDeduplicated
      reference_count := rec0.reference_count + 1 }
  let s2 := { s1 with fileRefs := kvSet s1.fileRefs fileId fref }
  let rec1 := { rec0 with reference_count := rec0.reference_count + 1 }
  let s3 := { s2 with files := kvSet s2.files fileHash rec1 }
  (fref, totalSize1, s3)

/-- The `for (const file of files)` loop of the upload handler.  The quota
snapshot is the one read once before the loop; the check compares it
against the running total of newly stored bytes (`storage_used + totalSize
+ fileSize > storage_limit`) and, as in the source, an over-quota file
returns HTTP 413 immediately, leaving every mutation already performed for
earlier files of the batch in place. -/
def uploadLoop (userId userName : String) (tags : List String)
    (folderId : Option String) (isPublic : Bool) (quotaSnap : Option Quota) :
    Int → List UploadFileInput → Int → List FileRef → Vault →
    UploadResult × Int × Vault
  | _, [], totalSize, acc, s => (UploadResult.ok acc.reverse, totalSize, s)
  | now, f :: rest, totalSize, acc, s =>
    let fileSize : Int := f.bytes.length
    match quotaSnap with
    | some q =>
      if q.storage_used + totalSize + fileSize > q.storage_limit then
        (UploadResult.quotaExceeded q.storage_limit (q.storage_used + totalSize),
          totalSize, s)
      else
        let step := processFile userId userName tags folderId isPublic now f totalSize s
        uploadLoop userId userName tags folderId isPublic quotaSnap (now + 1)
          rest step.2.1 (step.1 :: acc) step.2.2
    | none =>
      let step := processFile userId userName tags folderId isPublic now f totalSize s
      uploadLoop userId userName tags folderId isPublic quotaSnap (now + 1)
        rest step.2.1 (step.1 :: acc) step.2.2

/-- Embeds `POST /make-server-7f2aa9ae/upload` (after authentication and
rate limiting): reads the caller's quota record once, runs the per-file
loop, and on success writes the quota back with `storage_used` increased by
the total of newly stored bytes.  On a 413 early return the quota record is
not written, but state mutated for earlier files of the batch remains. -/
def uploadFiles (req : UploadRequest) (s : Vault) : UploadResult × Vault :=
  if req.files.isEmpty then (UploadResult.noFiles, s)
  else
    match uploadLoop req.userId req.userName req.tags req.folderId req.isPublic
        (kvGet s.quotas req.userId) req.now req.files 0 [] s with
    | (UploadResult.ok refs, totalSize, s1) =>
      (UploadResult.ok refs,
        match kvGet s.quotas req.userId with
        | some q =>
          { s1 with
              quotas := kvSet s1.quotas req.userId
                { q with storage_used := q.storage_used + totalSize } }
        | none => s1)
    | (r, _, s1) => (r, s1)

/-- The observable outcome of `DELETE /files/:fileId`: HTTP 404, HTTP 403 or
HTTP 200. -/
inductive DeleteResult where
  | notFound : DeleteResult
  | forbidden : DeleteResult
  | success : DeleteResult
deriving DecidableEq, Repr

/-- Embeds `DELETE /make-server-7f2aa9ae/files/:fileId` (after
authentication and rate limiting): entry lookup, owner check, conditional
reference-count decrement / reclamation, entry deletion and the conditional
quota adjustment.  The quota condition `fileData?.reference_count <= 0`
reads the already-decremented count and is false when the ContentRecord was
absent (`undefined <= 0` is false in JavaScript). -/
def deleteFile (userId fileId : String) (s : Vault) : DeleteResult × Vault :=
  match kvGet s.fileRefs fileId with
  | none => (DeleteResult.notFound, s)
  | some fref =>
    if fref.uploader_id ≠ userId then (DeleteResult.forbidden, s)
    else
      let fileHash := fref.hash
      let fileData := kvGet s.files fileHash
      let s1 :=
        match fileData with
        | some fd =>
          let fd1 := { fd with reference_count := fd.reference_count - 1 }
          if fd1.reference_count ≤ 0 then
            { s with
                storage := s.storage.filter (fun x => x ≠ fd.storage_path)
                files := kvDel s.files fileHash }
          else
            { s with files := kvSet s.files fileHash fd1 }
        | none => s
      let s2 := { s1 with fileRefs := kvDel s1.fileRefs fileId }
      let s3 :=
        match kvGet s2.quotas userId, fileData with
        | some q, some fd =>
          if fd.reference_count - 1 ≤ 0 then
            { s2 with
                quotas := kvSet s2.quotas userId
                  { q with storage_used := max 0 (q.storage_used - fref.size) } }
          else s2
        | _, _ => s2
      (DeleteResult.success, s3)

/-- One request against the storage core, for reasoning about request
sequences. -/
inductive Op where
  | upload (req : UploadRequest) : Op
  | remove (userId fileId : String) : Op

/-- The state reached after serving one request. -/
def applyOp (s : Vault) : Op → Vault
  | .upload req => (uploadFiles req s).2
  | .remove userId fileId => (deleteFile userId fileId s).2

/-- Number of OwnershipEntries in the ledger whose fingerprint is `h`
(what the spec calls the number of live references to a ContentRecord). -/
def refsToHash (l : List (String × FileRef)) (h : String) : Nat :=
  match l with
  | [] => 0
  | p :: rest =>
    if p.2.hash = h then refsToHash rest h + 1 else refsToHash rest h

/-- Every quota record in the state carries a non-negative
`storage_used`. -/
def quotasNonneg (s : Vault) : Prop :=
  ∀ u q, kvGet s.quotas u = some q → 0 ≤ q.storage_used

/-!
Concrete fixtures for witnesses and counterexamples.  The content bytes
`[0, 1, 2]` have fingerprint `"000102"` under the modelled digest and size
3; MIME sniffing yields `application/octet-stream` (fewer than 4 bytes).
-/

/-- ContentRecord for bytes `[0, 1, 2]` with one live reference. -/
def recB : FileRecord :=
  { hash := "000102", mime_type := "text/plain", size := 3,
    storage_path := "000102", reference_count := 1, created_at := 0 }

/-- The same ContentRecord with two live references. -/
def recB2 : FileRecord :=
  { recB with reference_count := 2 }

/-- U1's OwnershipEntry for bytes `[0, 1, 2]`. -/
def refU1 : FileRef :=
  { id := "u1:000102:0", hash := "000102", filename := "b.txt",
    mime_type := "text/plain", size := 3, upload_date := 0,
    uploader_id := "u1", uploader_name := "U One", is_public := false,
    folder_id := none, tags := [], storage_path := "000102",
    download_count := 0, is_deduplicated := false, reference_count := 1 }

/-- U2's OwnershipEntry for the same bytes, created as a duplicate. -/
def refU2 : FileRef :=
  { refU1 with
    id := "u2:000102:1", uploader_id := "u2",
    uploader_name := "U Two", upload_date := 1, is_deduplicated := true,
    reference_count := 2 }

/-- State after U1 uploaded bytes `[0, 1, 2]`: one ContentRecord with
`reference_count = 1`, U1 charged 3 bytes, U2 uncharged. -/
def sA : Vault :=
  { files := [("000102", recB)],
    fileRefs := [("u1:000102:0", refU1)],
    quotas := [("u1", ⟨3, 100⟩), ("u2", ⟨0, 100⟩)],
    storage := ["000102"] }

/-- State after U1 and U2 both uploaded bytes `[0, 1, 2]`:
`reference_count = 2`, two OwnershipEntries. -/
def sB : Vault :=
  { files := [("000102", recB2)],
    fileRefs := [("u1:000102:0", refU1), ("u2:000102:1", refU2)],
    quotas := [("u1", ⟨3, 100⟩), ("u2", ⟨0, 100⟩)],
    storage := ["000102"] }

/-- State with U1's OwnershipEntry present but the ContentRecord for its
fingerprint absent. -/
def sC9 : Vault :=
  { files := [],
    fileRefs := [("u1:000102:0", refU1)],
    quotas := [("u1", ⟨3, 100⟩)],
    storage := [] }

/-- Fresh state with a single owner whose quota limit is 4 bytes. -/
def sLimit4 : Vault :=
  { files := [], fileRefs := [], quotas := [("u1", ⟨0, 4⟩)], storage := [] }

/-- State where U1's content exists and U2 has 1 byte of quota headroom
(9 of 10 bytes charged). -/
def sLowRoom : Vault :=
  { files := [("000102", recB)],
    fileRefs := [("u1:000102:0", refU1)],
    quotas := [("u2", ⟨9, 10⟩)],
    storage := ["000102"] }

/-- Fresh state with a single owner and an ample limit. -/
def sFresh : Vault :=
  { files := [], fileRefs := [], quotas := [("u1", ⟨0, 100⟩)], storage := [] }

/-- U2 re-uploads the bytes `[0, 1, 2]` that U1 already stored. -/
def reqDupU2 : UploadRequest :=
  { userId := "u2", userName := "U Two", tags := [], folderId := none,
    isPublic := false, now := 5, files := [⟨"b2.txt", "text/plain", [0, 1, 2]⟩] }

/-- A two-file batch by U1: 3 bytes of new content, then 3 more bytes of
new content (6 bytes in total, over the 4-byte limit of `sLimit4`). -/
def reqBatch : UploadRequest :=
  { userId := "u1", userName := "U One", tags := [], folderId := none,
    isPublic := false, now := 7,
    files := [⟨"f1.bin", "", [0, 1, 2]⟩, ⟨"f2.bin", "", [3, 4, 5]⟩] }

/-- A single-file upload by U1 used to exercise an upload/remove
sequence. -/
def reqW : UploadRequest :=
  { userId := "u1", userName := "U One", tags := [], folderId := none,
    isPublic := false, now := 3, files := [⟨"w.bin", "", [0, 1, 2]⟩] }

/-- Upload new content, then remove the entry it created. -/
def opsW : List Op :=
  [Op.upload reqW, Op.remove "u1" "u1:000102:3"]

/-! ## Association-list (kv store) lemmas -/

theorem kvGet_kvDel_self {α : Type} (l : List (String × α)) (k : String) :
    kvGet (kvDel l k) k = none := by
  induction l with
  | nil => simp [kvDel, kvGet]
  | cons p rest ih =>
    by_cases h : p.1 = k
    · simp [kvDel, h, ih]
    · simp [kvDel, kvGet, h, ih]

theorem kvGet_kvDel_ne {α : Type} (l : List (String × α)) (k k' : String)
    (h : k' ≠ k) : kvGet (kvDel l k) k' = kvGet l k' := by
  induction l with
  | nil => simp [kvDel, kvGet]
  | cons p rest ih =>
    by_cases hp : p.1 = k
    · subst hp
      simp [kvDel, kvGet, Ne.symm h, ih]
    · simp [kvDel, kvGet, hp, ih]

theorem kvGet_kvSet_self {α : Type} (l : List (String × α)) (k : String) (v : α) :
    kvGet (kvSet l k v) k = some v := by
  induction l with
  | nil => simp [kvSet, kvGet]
  | cons p rest ih =>
    by_cases h : p.1 = k
    · simp [kvSet, kvGet, h]
    · simp [kvSet, kvGet, h, ih]

theorem kvGet_kvSet_ne {α : Type} (l : List (String × α)) (k k' : String) (v : α)
    (h : k' ≠ k) : kvGet (kvSet l k v) k' = kvGet l k' := by
  induction l with
  | nil => simp [kvSet, kvGet, Ne.symm h]
  | cons p rest ih =>
    by_cases hp : p.1 = k
    · subst hp
      simp [kvSet, kvGet, Ne.symm h, kvGet_kvDel_ne rest p.1 k' h]
    · simp [kvSet, kvGet, hp, ih]

/-! ## Structure of the delete handler -/

theorem deleteFile_notFound (s : Vault) (u fileId : String)
    (h : kvGet s.fileRefs fileId = none) :
    deleteFile u fileId s = (DeleteResult.notFound, s) := by
  unfold deleteFile
  rw [h]

theorem deleteFile_forbidden (s : Vault) (a fileId : String)
    (fref : FileRef) (h1 : kvGet s.fileRefs fileId = some fref)
    (h2 : fref.uploader_id ≠ a) :
    deleteFile a fileId s = (DeleteResult.forbidden, s) := by
  unfold deleteFile
  rw [h1]
  simp [h2]

theorem deleteFile_success_inv (s : Vault) (u fileId : String)
    (h : (deleteFile u fileId s).1 = DeleteResult.success) :
    ∃ fref, kvGet s.fileRefs fileId = some fref ∧ fref.uploader_id = u := by
  cases hg : kvGet s.fileRefs fileId with
  | none =>
    unfold deleteFile at h
    rw [hg] at h
    simp at h
  | some fref =>
    by_cases ho : fref.uploader_id = u
    · exact ⟨fref, rfl, ho⟩
    · unfold deleteFile at h
      rw [hg] at h
      simp [ho] at h

theorem deleteFile_shape (s : Vault) (u fileId : String) (fref : FileRef)
    (hg : kvGet s.fileRefs fileId = some fref) (ho : fref.uploader_id = u) :
    (deleteFile u fileId s).1 = DeleteResult.success ∧
    (deleteFile u fileId s).2.fileRefs = kvDel s.fileRefs fileId := by
  unfold deleteFile
  rw [hg]
  simp only [ho, ne_eq, not_true_eq_false, if_false]
  cases hfd : kvGet s.files fref.hash <;>
    cases hq : kvGet s.quotas u <;>
      simp only [hfd, hq] <;> (try split_ifs) <;>
        simp [hq, apply_ite Vault.fileRefs]

/-! ## C6: delete authorization -/

/-- C6: for every caller `a` and every OwnershipEntry owned by a different
owner, `remove(a, entryId)` fails with Forbidden and performs zero
mutation — entry, ContentRecords, physical content and quotas are all
returned unchanged. -/
theorem remove_foreign_entry_forbidden (s : Vault) (a fileId : String)
    (fref : FileRef) (h1 : kvGet s.fileRefs fileId = some fref)
    (h2 : fref.uploader_id ≠ a) :
    deleteFile a fileId s = (DeleteResult.forbidden, s) :=
  deleteFile_forbidden s a fileId fref h1 h2

theorem remove_foreign_entry_forbidden_witness :
    kvGet sA.fileRefs "u1:000102:0" = some refU1 ∧
    refU1.uploader_id ≠ "u2" ∧
    deleteFile "u2" "u1:000102:0" sA = (DeleteResult.forbidden, sA) :=
  ⟨rfl, by decide,
    remove_foreign_entry_forbidden sA "u2" "u1:000102:0" refU1 rfl (by decide)⟩

/-! ## C7: non-idempotent delete -/

/-- C7: a successful remove deletes the OwnershipEntry, so every
subsequent remove of the same entry id returns NotFound (and leaves the
state unchanged) rather than reporting success. -/
theorem remove_succeeds_at_most_once (s : Vault) (u u2 fileId : String)
    (h : (deleteFile u fileId s).1 = DeleteResult.success) :
    deleteFile u2 fileId (deleteFile u fileId s).2
      = (DeleteResult.notFound, (deleteFile u fileId s).2) := by
  obtain ⟨fref, hg, ho⟩ := deleteFile_success_inv s u fileId h
  have h2 := (deleteFile_shape s u fileId fref hg ho).2
  have hn : kvGet (deleteFile u fileId s).2.fileRefs fileId = none := by
    rw [h2]
    exact kvGet_kvDel_self _ _
  exact deleteFile_notFound _ u2 fileId hn

theorem remove_succeeds_at_most_once_witness :
    (deleteFile "u1" "u1:000102:0" sA).1 = DeleteResult.success ∧
    deleteFile "u1" "u1:000102:0" (deleteFile "u1" "u1:000102:0" sA).2
      = (DeleteResult.notFound, (deleteFile "u1" "u1:000102:0" sA).2) :=
  ⟨by decide, remove_succeeds_at_most_once sA "u1" "u1" "u1:000102:0" (by decide)⟩

/-! ## C9: delete with a missing ContentRecord -/

/-- C9: when the OwnershipEntry exists but the ContentRecord for its
fingerprint is absent, remove by the owner succeeds and deletes exactly the
entry: storage is untouched and quotas are unchanged (the JavaScript guard
`fileData?.reference_count <= 0` is false on `undefined`). -/
theorem remove_succeeds_without_record (s : Vault) (u fileId : String)
    (fref : FileRef) (h1 : kvGet s.fileRefs fileId = some fref)
    (h2 : fref.uploader_id = u) (h3 : kvGet s.files fref.hash = none) :
    deleteFile u fileId s =
      (DeleteResult.success, { s with fileRefs := kvDel s.fileRefs fileId }) := by
  unfold deleteFile
  rw [h1]
  simp only [h2, ne_eq, not_true_eq_false, if_false, h3]
  cases hq : kvGet s.quotas u <;> simp [hq]

/-! ## Structure of the upload handler -/

theorem processFile_quotas (u un : String) (tg : List String)
    (fo : Option String) (pub : Bool) (now : Int) (f : UploadFileInput)
    (total : Int) (s : Vault) :
    (processFile u un tg fo pub now f total s).2.2.quotas = s.quotas := by
  unfold processFile
  cases h : kvGet s.files (calculateFileHash f.bytes) <;> simp [h]

theorem processFile_total_le (u un : String) (tg : List String)
    (fo : Option String) (pub : Bool) (now : Int) (f : UploadFileInput)
    (total : Int) (s : Vault) :
    total ≤ (processFile u un tg fo pub now f total s).2.1 := by
  unfold processFile
  cases h : kvGet s.files (calculateFileHash f.bytes) <;> simp [h]

theorem uploadLoop_quotas (u un : String) (tg : List String)
    (fo : Option String) (pub : Bool) (qs : Option Quota)
    (fs : List UploadFileInput) :
    ∀ (now total : Int) (acc : List FileRef) (s : Vault),
      (uploadLoop u un tg fo pub qs now fs total acc s).2.2.quotas = s.quotas := by
  induction fs with
  | nil => intro now total acc s; rfl
  | cons f rest ih =>
    intro now total acc s
    unfold uploadLoop
    cases qs with
    | none => rw [ih]; exact processFile_quotas u un tg fo pub now f total s
    | some q =>
      by_cases hover : q.storage_used + total + (f.bytes.length : Int) > q.storage_limit
      · simp [hover]
      · simp only [hover, if_false]
        rw [ih]
        exact processFile_quotas u un tg fo pub now f total s

theorem uploadLoop_total_le (u un : String) (tg : List String)
    (fo : Option String) (pub : Bool) (qs : Option Quota)
    (fs : List UploadFileInput) :
    ∀ (now total : Int) (acc : List FileRef) (s : Vault),
      total ≤ (uploadLoop u un tg fo pub qs now fs total acc s).2.1 := by
  induction fs with
  | nil => intro now total acc s; exact le_refl total
  | cons f rest ih =>
    intro now total acc s
    unfold uploadLoop
    cases qs with
    | none =>
      exact le_trans (processFile_total_le u un tg fo pub now f total s) (ih _ _ _ _)
    | some q =>
      by_cases hover : q.storage_used + total + (f.bytes.length : Int) > q.storage_limit
      · simp [hover]
      · simp only [hover, if_false]
        exact le_trans (processFile_total_le u un tg fo pub now f total s) (ih _ _ _ _)

theorem processFile_dup (u un : String) (tg : List String) (fo : Option String)
    (pub : Bool) (now : Int) (f : UploadFileInput) (total : Int) (s : Vault)
    (rec : FileRecord)
    (hrec : kvGet s.files (calculateFileHash f.bytes) = some rec) :
    (processFile u un tg fo pub now f total s).2 =
      (total,
        { s with
            fileRefs := kvSet s.fileRefs
              (u ++ ":" ++ calculateFileHash f.bytes ++ ":" ++ toString now)
              (processFile u un tg fo pub now f total s).1
            files := kvSet s.files (calculateFileHash f.bytes)
              { rec with reference_count := rec.reference_count + 1 } }) := by
  unfold processFile
  simp [hrec]

theorem processFile_new_files (u un : String) (tg : List String)
    (fo : Option String) (pub : Bool) (now : Int) (f : UploadFileInput)
    (total : Int) (s : Vault)
    (hrec : kvGet s.files (calculateFileHash f.bytes) = none) :
    kvGet (processFile u un tg fo pub now f total s).2.2.files
        (calculateFileHash f.bytes)
      = some { hash := calculateFileHash f.bytes,
               mime_type := if f.type = "" then getMimeTypeFromBuffer f.bytes else f.type,
               size := (f.bytes.length : Int),
               storage_path := calculateFileHash f.bytes,
               reference_count := 1, created_at := now } := by
  unfold processFile
  simp [hrec, kvGet_kvSet_self]

theorem uploadFiles_empty (req : UploadRequest) (s : Vault)
    (he : req.files.isEmpty = true) :
    uploadFiles req s = (UploadResult.noFiles, s) := by
  unfold uploadFiles
  rw [he]
  rfl

theorem uploadFiles_loop_err (req : UploadRequest) (s : Vault)
    (r : UploadResult) (total : Int) (s1 : Vault)
    (hne : req.files.isEmpty = false)
    (hL : uploadLoop req.userId req.userName req.tags req.folderId req.isPublic
      (kvGet s.quotas req.userId) req.now req.files 0 [] s = (r, total, s1))
    (hr : ∀ refs, r ≠ UploadResult.ok refs) :
    uploadFiles req s = (r, s1) := by
  unfold uploadFiles
  rw [hne, hL]
  cases r with
  | ok refs => exact absurd rfl (hr refs)
  | noFiles => rfl
  | quotaExceeded l2 u2 => rfl

theorem uploadFiles_loop_ok (req : UploadRequest) (s : Vault)
    (refs : List FileRef) (total : Int) (s1 : Vault)
    (hne : req.files.isEmpty = false)
    (hL : uploadLoop req.userId req.userName req.tags req.folderId req.isPublic
      (kvGet s.quotas req.userId) req.now req.files 0 [] s
        = (UploadResult.ok refs, total, s1)) :
    uploadFiles req s =
      (UploadResult.ok refs,
        match kvGet s.quotas req.userId with
        | some q =>
          { s1 with
              quotas := kvSet s1.quotas req.userId
                { q with storage_used := q.storage_used + total } }
        | none => s1) := by
  unfold uploadFiles
  rw [hne, hL]
  rfl

theorem uploadFiles_quotaExceeded_quotas (req : UploadRequest) (s : Vault)
    (lim used : Int)
    (h : (uploadFiles req s).1 = UploadResult.quotaExceeded lim used) :
    (uploadFiles req s).2.quotas = s.quotas := by
  by_cases he : req.files.isEmpty
  · rw [uploadFiles_empty req s he] at h
    simp at h
  · have hne : req.files.isEmpty = false := by simpa using he
    rcases hL : uploadLoop req.userId req.userName req.tags req.folderId
        req.isPublic (kvGet s.quotas req.userId) req.now req.files 0 [] s with
      ⟨r, total, s1⟩
    have hq1 : s1.quotas = s.quotas := by
      have h2 := uploadLoop_quotas req.userId req.userName req.tags req.folderId
        req.isPublic (kvGet s.quotas req.userId) req.files req.now 0 [] s
      rw [hL] at h2
      exact h2
    cases r with
    | ok refs =>
      rw [uploadFiles_loop_ok req s refs total s1 hne hL] at h
      simp at h
    | noFiles =>
      rw [uploadFiles_loop_err req s UploadResult.noFiles total s1 hne hL
        (by intro refs hc; cases hc)]
      exact hq1
    | quotaExceeded l2 u2 =>
      rw [uploadFiles_loop_err req s (UploadResult.quotaExceeded l2 u2) total s1
        hne hL (by intro refs hc; cases hc)]
      exact hq1

theorem uploadLoop_singleton_some (u un : String) (tg : List String)
    (fo : Option String) (pub : Bool) (q : Quota) (now : Int)
    (f : UploadFileInput) (total : Int) (acc : List FileRef) (s : Vault)
    (hok : ¬(q.storage_used + total + (f.bytes.length : Int) > q.storage_limit)) :
    uploadLoop u un tg fo pub (some q) now [f] total acc s =
      (UploadResult.ok ((processFile u un tg fo pub now f total s).1 :: acc).reverse,
        (processFile u un tg fo pub now f total s).2.1,
        (processFile u un tg fo pub now f total s).2.2) := by
  simp only [uploadLoop, if_neg hok]

theorem uploadLoop_singleton_none (u un : String) (tg : List String)
    (fo : Option String) (pub : Bool) (now : Int)
    (f : UploadFileInput) (total : Int) (acc : List FileRef) (s : Vault) :
    uploadLoop u un tg fo pub none now [f] total acc s =
      (UploadResult.ok ((processFile u un tg fo pub now f total s).1 :: acc).reverse,
        (processFile u un tg fo pub now f total s).2.1,
        (processFile u un tg fo pub now f total s).2.2) := by
  simp only [uploadLoop]

theorem uploadLoop_cons_over (u un : String) (tg : List String)
    (fo : Option String) (pub : Bool) (q : Quota) (now : Int)
    (f : UploadFileInput) (rest : List UploadFileInput) (total : Int)
    (acc : List FileRef) (s : Vault)
    (hover : q.storage_used + total + (f.bytes.length : Int) > q.storage_limit) :
    uploadLoop u un tg fo pub (some q) now (f :: rest) total acc s =
      (UploadResult.quotaExceeded q.storage_limit (q.storage_used + total),
        total, s) := by
  simp only [uploadLoop, if_pos hover]

theorem uploadFiles_single_isOk (u un : String) (tg : List String)
    (fo : Option String) (pub : Bool) (now : Int) (f : UploadFileInput)
    (s : Vault) :
    (uploadFiles ⟨u, un, tg, fo, pub, now, [f]⟩ s).1.isOk =
      (match kvGet s.quotas u with
        | some q => decide (q.storage_used + (f.bytes.length : Int) ≤ q.storage_limit)
        | none => true) := by
  cases hqs : kvGet s.quotas u with
  | none =>
    have hL : uploadLoop u un tg fo pub (kvGet s.quotas u) now [f] 0 [] s =
        (UploadResult.ok ((processFile u un tg fo pub now f 0 s).1 :: []).reverse,
          (processFile u un tg fo pub now f 0 s).2.1,
          (processFile u un tg fo pub now f 0 s).2.2) := by
      rw [hqs]
      exact uploadLoop_singleton_none u un tg fo pub now f 0 [] s
    rw [uploadFiles_loop_ok ⟨u, un, tg, fo, pub, now, [f]⟩ s _ _ _ rfl hL]
    simp [UploadResult.isOk, hqs]
  | some q =>
    by_cases hover : q.storage_used + 0 + (f.bytes.length : Int) > q.storage_limit
    · have hL : uploadLoop u un tg fo pub (kvGet s.quotas u) now [f] 0 [] s =
          (UploadResult.quotaExceeded q.storage_limit (q.storage_used + 0), 0, s) := by
        rw [hqs]
        exact uploadLoop_cons_over u un tg fo pub q now f [] 0 [] s hover
      rw [uploadFiles_loop_err ⟨u, un, tg, fo, pub, now, [f]⟩ s _ _ _ rfl hL
        (by intro refs hc; cases hc)]
      have hd : decide (q.storage_used + (f.bytes.length : Int) ≤ q.storage_limit)
          = false := by
        rw [decide_eq_false_iff_not]
        omega
      simp [UploadResult.isOk, hd]
    · have hL : uploadLoop u un tg fo pub (kvGet s.quotas u) now [f] 0 [] s =
          (UploadResult.ok ((processFile u un tg fo pub now f 0 s).1 :: []).reverse,
            (processFile u un tg fo pub now f 0 s).2.1,
            (processFile u un tg fo pub now f 0 s).2.2) := by
        rw [hqs]
        exact uploadLoop_singleton_some u un tg fo pub q now f 0 [] s hover
      rw [uploadFiles_loop_ok ⟨u, un, tg, fo, pub, now, [f]⟩ s _ _ _ rfl hL]
      have hd : decide (q.storage_used + (f.bytes.length : Int) ≤ q.storage_limit)
          = true := by
        rw [decide_eq_true_iff]
        omega
      simp [UploadResult.isOk, hd]

theorem uploadFiles_single_files (u un : String) (tg : List String)
    (fo : Option String) (pub : Bool) (now : Int) (f : UploadFileInput)
    (s : Vault)
    (hok : (uploadFiles ⟨u, un, tg, fo, pub, now, [f]⟩ s).1.isOk = true) :
    (uploadFiles ⟨u, un, tg, fo, pub, now, [f]⟩ s).2.files
      = (processFile u un tg fo pub now f 0 s).2.2.files := by
  cases hqs : kvGet s.quotas u with
  | none =>
    have hL : uploadLoop u un tg fo pub (kvGet s.quotas u) now [f] 0 [] s =
        (UploadResult.ok ((processFile u un tg fo pub now f 0 s).1 :: []).reverse,
          (processFile u un tg fo pub now f 0 s).2.1,
          (processFile u un tg fo pub now f 0 s).2.2) := by
      rw [hqs]
      exact uploadLoop_singleton_none u un tg fo pub now f 0 [] s
    rw [uploadFiles_loop_ok ⟨u, un, tg, fo, pub, now, [f]⟩ s _ _ _ rfl hL]
    simp [hqs]
  | some q =>
    by_cases hover : q.storage_used + 0 + (f.bytes.length : Int) > q.storage_limit
    · have hL : uploadLoop u un tg fo pub (kvGet s.quotas u) now [f] 0 [] s =
          (UploadResult.quotaExceeded q.storage_limit (q.storage_used + 0), 0, s) := by
        rw [hqs]
        exact uploadLoop_cons_over u un tg fo pub q now f [] 0 [] s hover
      rw [uploadFiles_loop_err ⟨u, un, tg, fo, pub, now, [f]⟩ s _ _ _ rfl hL
        (by intro refs hc; cases hc)] at hok
      simp [UploadResult.isOk] at hok
    · have hL : uploadLoop u un tg fo pub (kvGet s.quotas u) now [f] 0 [] s =
          (UploadResult.ok ((processFile u un tg fo pub now f 0 s).1 :: []).reverse,
            (processFile u un tg fo pub now f 0 s).2.1,
            (processFile u un tg fo pub now f 0 s).2.2) := by
        rw [hqs]
        exact uploadLoop_singleton_some u un tg fo pub q now f 0 [] s hover
      rw [uploadFiles_loop_ok ⟨u, un, tg, fo, pub, now, [f]⟩ s _ _ _ rfl hL]
      simp [hqs]

theorem remove_succeeds_without_record_witness :
    kvGet sC9.fileRefs "u1:000102:0" = some refU1 ∧
    refU1.uploader_id = "u1" ∧
    kvGet sC9.files refU1.hash = none ∧
    deleteFile "u1" "u1:000102:0" sC9 =
      (DeleteResult.success,
        { sC9 with fileRefs := kvDel sC9.fileRefs "u1:000102:0" }) :=
  ⟨rfl, rfl, rfl,
    remove_succeeds_without_record sC9 "u1" "u1:000102:0" refU1 rfl rfl rfl⟩

/-- C10: a MIME-type mismatch between the declared type and the type sniffed
from the magic bytes never makes an ingest fail. -/
theorem mime_mismatch_only_warns (u un : String) (tg : List String)
    (fo : Option String) (pub : Bool) (now : Int) (s : Vault)
    (f : UploadFileInput) (d : String) :
    ((uploadFiles ⟨u, un, tg, fo, pub, now, [f]⟩ s).1.isOk
      = (uploadFiles ⟨u, un, tg, fo, pub, now, [{ f with type := d }]⟩ s).1.isOk) ∧
    (kvGet s.files (calculateFileHash f.bytes) = none →
      (uploadFiles ⟨u, un, tg, fo, pub, now, [f]⟩ s).1.isOk = true →
      kvGet (uploadFiles ⟨u, un, tg, fo, pub, now, [f]⟩ s).2.files
          (calculateFileHash f.bytes)
        = some { hash := calculateFileHash f.bytes,
                 mime_type := if f.type = "" then getMimeTypeFromBuffer f.bytes
                   else f.type,
                 size := (f.bytes.length : Int),
                 storage_path := calculateFileHash f.bytes,
                 reference_count := 1, created_at := now }) := by
  constructor
  · rw [uploadFiles_single_isOk, uploadFiles_single_isOk]
  · intro hnew hok
    rw [uploadFiles_single_files u un tg fo pub now f s hok]
    exact processFile_new_files u un tg fo pub now f 0 s hnew

theorem mime_mismatch_only_warns_witness :
    mimeMismatchWarned "image/png" [37, 80, 68, 70] = true ∧
    ((uploadFiles ⟨"u1", "U One", [], none, false, 3,
        [⟨"x.pdf", "image/png", [37, 80, 68, 70]⟩]⟩ sFresh).1.isOk
      = (uploadFiles ⟨"u1", "U One", [], none, false, 3,
        [⟨"x.pdf", "application/pdf", [37, 80, 68, 70]⟩]⟩ sFresh).1.isOk) ∧
    kvGet sFresh.files (calculateFileHash [37, 80, 68, 70]) = none ∧
    (uploadFiles ⟨"u1", "U One", [], none, false, 3,
        [⟨"x.pdf", "image/png", [37, 80, 68, 70]⟩]⟩ sFresh).1.isOk = true ∧
    kvGet (uploadFiles ⟨"u1", "U One", [], none, false, 3,
        [⟨"x.pdf", "image/png", [37, 80, 68, 70]⟩]⟩ sFresh).2.files
        (calculateFileHash [37, 80, 68, 70])
      = some { hash := calculateFileHash [37, 80, 68, 70],
               mime_type := if ("image/png" : String) = "" then
                   getMimeTypeFromBuffer [37, 80, 68, 70]
                 else "image/png",
               size := (4 : Int), storage_path := calculateFileHash [37, 80, 68, 70],
               reference_count := 1, created_at := 3 } :=
  ⟨by decide,
    (mime_mismatch_only_warns "u1" "U One" [] none false 3 sFresh
      ⟨"x.pdf", "image/png", [37, 80, 68, 70]⟩ "application/pdf").1,
    rfl,
    by decide,
    (mime_mismatch_only_warns "u1" "U One" [] none false 3 sFresh
      ⟨"x.pdf", "image/png", [37, 80, 68, 70]⟩ "application/pdf").2 rfl (by decide)⟩

/-- C1 amended -/
theorem upload_duplicate_no_charge (s : Vault) (u un fname dtype : String)
    (tg : List String) (fo : Option String) (pub : Bool) (now : Int)
    (bytes : List Nat) (rec : FileRecord) (q : Quota)
    (hrec : kvGet s.files (calculateFileHash bytes) = some rec)
    (hq : kvGet s.quotas u = some q)
    (hroom : q.storage_used + (bytes.length : Int) ≤ q.storage_limit) :
    (uploadFiles ⟨u, un, tg, fo, pub, now, [⟨fname, dtype, bytes⟩]⟩ s).1.isOk = true ∧
    (uploadFiles ⟨u, un, tg, fo, pub, now, [⟨fname, dtype, bytes⟩]⟩ s).2.storage
      = s.storage ∧
    kvGet (uploadFiles ⟨u, un, tg, fo, pub, now, [⟨fname, dtype, bytes⟩]⟩ s).2.files
        (calculateFileHash bytes)
      = some { rec with reference_count := rec.reference_count + 1 } ∧
    kvGet (uploadFiles ⟨u, un, tg, fo, pub, now, [⟨fname, dtype, bytes⟩]⟩ s).2.quotas u
      = some q := by
  have hok : ¬(q.storage_used + 0 +
      (((⟨fname, dtype, bytes⟩ : UploadFileInput)).bytes.length : Int)
        > q.storage_limit) := by
    simp only [not_lt]
    omega
  have hL : uploadLoop u un tg fo pub (kvGet s.quotas u) now
      [⟨fname, dtype, bytes⟩] 0 [] s =
      (UploadResult.ok
          ((processFile u un tg fo pub now ⟨fname, dtype, bytes⟩ 0 s).1 :: []).reverse,
        (processFile u un tg fo pub now ⟨fname, dtype, bytes⟩ 0 s).2.1,
        (processFile u un tg fo pub now ⟨fname, dtype, bytes⟩ 0 s).2.2) := by
    rw [hq]
    exact uploadLoop_singleton_some u un tg fo pub q now ⟨fname, dtype, bytes⟩ 0 [] s hok
  have hE := uploadFiles_loop_ok ⟨u, un, tg, fo, pub, now, [⟨fname, dtype, bytes⟩]⟩ s
    _ _ _ rfl hL
  have hP := processFile_dup u un tg fo pub now ⟨fname, dtype, bytes⟩ 0 s rec hrec
  rw [hE, hq]
  refine ⟨rfl, ?_, ?_, ?_⟩
  · simp only [hP]
  · simp only [hP]
    exact kvGet_kvSet_self _ _ _
  · simp only [hP]
    have h0 : Quota.mk (q.storage_used + 0) q.storage_limit = q := by
      simp
    rw [h0]
    exact kvGet_kvSet_self _ _ _

theorem upload_duplicate_counterexample :
    (uploadFiles reqDupU2 sA).1.isOk = true ∧
    (uploadFiles reqDupU2 sA).2.storage = sA.storage ∧
    kvGet (uploadFiles reqDupU2 sA).2.files "000102" = some recB2 ∧
    kvGet (uploadFiles reqDupU2 sA).2.quotas "u2" = some ⟨0, 100⟩ ∧
    kvGet (uploadFiles reqDupU2 sA).2.quotas "u2" ≠ some ⟨0 + 3, 100⟩ := by
  decide

theorem upload_duplicate_no_charge_witness :
    kvGet sA.files (calculateFileHash [0, 1, 2]) = some recB ∧
    kvGet sA.quotas "u2" = some (Quota.mk 0 100) ∧
    ((Quota.mk 0 100).storage_used + (([0, 1, 2] : List Nat).length : Int)
      ≤ (Quota.mk 0 100).storage_limit) ∧
    ((uploadFiles ⟨"u2", "U Two", [], none, false, 5,
        [⟨"b2.txt", "text/plain", [0, 1, 2]⟩]⟩ sA).1.isOk = true ∧
      (uploadFiles ⟨"u2", "U Two", [], none, false, 5,
        [⟨"b2.txt", "text/plain", [0, 1, 2]⟩]⟩ sA).2.storage = sA.storage ∧
      kvGet (uploadFiles ⟨"u2", "U Two", [], none, false, 5,
          [⟨"b2.txt", "text/plain", [0, 1, 2]⟩]⟩ sA).2.files
          (calculateFileHash [0, 1, 2])
        = some { recB with reference_count := recB.reference_count + 1 } ∧
      kvGet (uploadFiles ⟨"u2", "U Two", [], none, false, 5,
          [⟨"b2.txt", "text/plain", [0, 1, 2]⟩]⟩ sA).2.quotas "u2"
        = some (Quota.mk 0 100)) :=
  ⟨rfl, rfl, by decide,
    upload_duplicate_no_charge sA "u2" "U Two" "b2.txt" "text/plain" [] none
      false 5 [0, 1, 2] recB ⟨0, 100⟩ rfl rfl (by decide)⟩

theorem deleteFile_keep (s : Vault) (u fileId : String) (fref : FileRef)
    (fd : FileRecord)
    (hg : kvGet s.fileRefs fileId = some fref) (ho : fref.uploader_id = u)
    (hfd : kvGet s.files fref.hash = some fd)
    (hrc : ¬(fd.reference_count - 1 ≤ 0)) :
    (deleteFile u fileId s).2.storage = s.storage ∧
    (deleteFile u fileId s).2.files
      = kvSet s.files fref.hash { fd with reference_count := fd.reference_count - 1 } ∧
    (deleteFile u fileId s).2.quotas = s.quotas := by
  have hc3 : ¬(fd.reference_count ≤ 1) := by omega
  unfold deleteFile
  rw [hg]
  simp only [ho, ne_eq, not_true_eq_false, if_false, hfd]
  cases hq : kvGet s.quotas u with
  | none => simp [hq, hc3]
  | some q2 => simp [hq, hc3]

/-- C3 amended -/
theorem remove_shared_entry_keeps_quota (s : Vault) (u fileId : String)
    (fref : FileRef) (fd : FileRecord) (q : Quota)
    (hg : kvGet s.fileRefs fileId = some fref) (ho : fref.uploader_id = u)
    (hfd : kvGet s.files fref.hash = some fd)
    (hrc : fd.reference_count = 2)
    (hq : kvGet s.quotas u = some q)
    (hmem : fref.hash ∈ s.storage) :
    (deleteFile u fileId s).1 = DeleteResult.success ∧
    kvGet (deleteFile u fileId s).2.files fref.hash
      = some { fd with reference_count := 1 } ∧
    fref.hash ∈ (deleteFile u fileId s).2.storage ∧
    kvGet (deleteFile u fileId s).2.quotas u = some q := by
  have hrc1 : ¬(fd.reference_count - 1 ≤ 0) := by omega
  obtain ⟨hsucc, -⟩ := deleteFile_shape s u fileId fref hg ho
  obtain ⟨hst, hfi, hqt⟩ := deleteFile_keep s u fileId fref fd hg ho hfd hrc1
  have h1 : fd.reference_count - 1 = 1 := by omega
  refine ⟨hsucc, ?_, ?_, ?_⟩
  · rw [hfi, kvGet_kvSet_self, h1]
  · rw [hst]
    exact hmem
  · rw [hqt, hq]

theorem remove_shared_counterexample :
    (deleteFile "u1" "u1:000102:0" sB).1 = DeleteResult.success ∧
    kvGet (deleteFile "u1" "u1:000102:0" sB).2.files "000102"
      = some { recB2 with reference_count := 1 } ∧
    (deleteFile "u1" "u1:000102:0" sB).2.storage = ["000102"] ∧
    kvGet (deleteFile "u1" "u1:000102:0" sB).2.quotas "u1" = some ⟨3, 100⟩ ∧
    kvGet (deleteFile "u1" "u1:000102:0" sB).2.quotas "u1" ≠ some ⟨0, 100⟩ := by
  decide

theorem remove_shared_entry_keeps_quota_witness :
    kvGet sB.fileRefs "u1:000102:0" = some refU1 ∧
    refU1.uploader_id = "u1" ∧
    kvGet sB.files refU1.hash = some recB2 ∧
    recB2.reference_count = 2 ∧
    kvGet sB.quotas "u1" = some (Quota.mk 3 100) ∧
    refU1.hash ∈ sB.storage ∧
    ((deleteFile "u1" "u1:000102:0" sB).1 = DeleteResult.success ∧
      kvGet (deleteFile "u1" "u1:000102:0" sB).2.files refU1.hash
        = some { recB2 with reference_count := 1 } ∧
      refU1.hash ∈ (deleteFile "u1" "u1:000102:0" sB).2.storage ∧
      kvGet (deleteFile "u1" "u1:000102:0" sB).2.quotas "u1"
        = some (Quota.mk 3 100)) :=
  ⟨rfl, rfl, rfl, rfl, rfl, by decide,
    remove_shared_entry_keeps_quota sB "u1" "u1:000102:0" refU1 recB2 ⟨3, 100⟩
      rfl rfl rfl rfl rfl (by decide)⟩

/-- C2 amended -/
theorem batch_quota_failure_partial_mutation :
    (∀ (req : UploadRequest) (s : Vault) (lim used : Int),
        (uploadFiles req s).1 = UploadResult.quotaExceeded lim used →
        (uploadFiles req s).2.quotas = s.quotas) ∧
    ((uploadFiles reqBatch sLimit4).1 = UploadResult.quotaExceeded 4 3 ∧
      kvGet (uploadFiles reqBatch sLimit4).2.files "000102" ≠ none ∧
      kvGet (uploadFiles reqBatch sLimit4).2.fileRefs "u1:000102:7" ≠ none) :=
  ⟨uploadFiles_quotaExceeded_quotas, by decide⟩

theorem batch_quota_failure_witness :
    (uploadFiles reqBatch sLimit4).2.quotas = sLimit4.quotas :=
  batch_quota_failure_partial_mutation.1 reqBatch sLimit4 4 3 (by decide)

theorem batch_quota_failure_counterexample :
    (uploadFiles reqBatch sLimit4).1 = UploadResult.quotaExceeded 4 3 ∧
    kvGet (uploadFiles reqBatch sLimit4).2.files "000102"
      = some { hash := "000102", mime_type := "application/octet-stream",
               size := 3, storage_path := "000102", reference_count := 1,
               created_at := 7 } ∧
    kvGet (uploadFiles reqBatch sLimit4).2.fileRefs "u1:000102:7" ≠ none ∧
    kvGet (uploadFiles reqBatch sLimit4).2.quotas "u1" = some ⟨0, 4⟩ := by
  decide

/-- C4 -/
theorem duplicate_upload_rejected_by_quota_check :
    kvGet sLowRoom.files (calculateFileHash [0, 1, 2]) = some recB ∧
    (uploadFiles reqDupU2 sLowRoom).1 = UploadResult.quotaExceeded 10 9 ∧
    (uploadFiles reqDupU2 sLowRoom).2 = sLowRoom := by
  decide

theorem uploadFiles_preserves_quotasNonneg (req : UploadRequest) (s : Vault)
    (h : quotasNonneg s) : quotasNonneg (uploadFiles req s).2 := by
  by_cases he : req.files.isEmpty
  · rw [uploadFiles_empty req s he]
    exact h
  · have hne : req.files.isEmpty = false := by simpa using he
    rcases hL : uploadLoop req.userId req.userName req.tags req.folderId
        req.isPublic (kvGet s.quotas req.userId) req.now req.files 0 [] s with
      ⟨r, total, s1⟩
    have hq1 : s1.quotas = s.quotas := by
      have h2 := uploadLoop_quotas req.userId req.userName req.tags req.folderId
        req.isPublic (kvGet s.quotas req.userId) req.files req.now 0 [] s
      rw [hL] at h2
      exact h2
    have ht : (0 : Int) ≤ total := by
      have h2 := uploadLoop_total_le req.userId req.userName req.tags req.folderId
        req.isPublic (kvGet s.quotas req.userId) req.files req.now 0 [] s
      rw [hL] at h2
      exact h2
    cases r with
    | ok refs =>
      rw [uploadFiles_loop_ok req s refs total s1 hne hL]
      cases hqs : kvGet s.quotas req.userId with
      | none =>
        intro u2 q2 hg2
        simp only at hg2
        rw [hq1] at hg2
        exact h u2 q2 hg2
      | some q =>
        intro u2 q2 hg2
        simp only at hg2
        by_cases hu : u2 = req.userId
        · subst hu
          rw [kvGet_kvSet_self] at hg2
          cases hg2
          have hq0 : 0 ≤ q.storage_used := h req.userId q hqs
          simpa using add_nonneg hq0 ht
        · rw [kvGet_kvSet_ne _ _ _ _ hu, hq1] at hg2
          exact h u2 q2 hg2
    | noFiles =>
      rw [uploadFiles_loop_err req s UploadResult.noFiles total s1 hne hL
        (by intro refs hc; cases hc)]
      intro u2 q2 hg2
      rw [hq1] at hg2
      exact h u2 q2 hg2
    | quotaExceeded l2 u3 =>
      rw [uploadFiles_loop_err req s (UploadResult.quotaExceeded l2 u3) total s1
        hne hL (by intro refs hc; cases hc)]
      intro u2 q2 hg2
      rw [hq1] at hg2
      exact h u2 q2 hg2

theorem deleteFile_quotas_cases (s : Vault) (u fid : String) (fref : FileRef)
    (hg : kvGet s.fileRefs fid = some fref) (ho : fref.uploader_id = u) :
    (deleteFile u fid s).2.quotas = s.quotas ∨
    ∃ q, kvGet s.quotas u = some q ∧
      (deleteFile u fid s).2.quotas =
        kvSet s.quotas u
          { q with storage_used := max 0 (q.storage_used - fref.size) } := by
  unfold deleteFile
  rw [hg]
  simp only [ho, ne_eq, not_true_eq_false, if_false]
  cases hfd : kvGet s.files fref.hash with
  | none =>
    cases hq : kvGet s.quotas u with
    | none => left; simp [hq]
    | some q => left; simp [hq]
  | some fd =>
    cases hq : kvGet s.quotas u with
    | none => left; simp [hq, apply_ite Vault.quotas]
    | some q =>
      by_cases hrc : fd.reference_count ≤ 1
      · right
        refine ⟨q, rfl, ?_⟩
        simp [hq, hrc, apply_ite Vault.quotas]
      · left
        simp [hq, hrc, apply_ite Vault.quotas]

theorem deleteFile_preserves_quotasNonneg (u fid : String) (s : Vault)
    (h : quotasNonneg s) : quotasNonneg (deleteFile u fid s).2 := by
  cases hgg : kvGet s.fileRefs fid with
  | none =>
    rw [deleteFile_notFound s u fid hgg]
    exact h
  | some fref =>
    by_cases ho : fref.uploader_id = u
    · rcases deleteFile_quotas_cases s u fid fref hgg ho with hcase | ⟨q, hq, hcase⟩
      · intro u2 q2 hg2
        rw [hcase] at hg2
        exact h u2 q2 hg2
      · intro u2 q2 hg2
        rw [hcase] at hg2
        by_cases hu : u2 = u
        · subst hu
          rw [kvGet_kvSet_self] at hg2
          cases hg2
          exact le_max_left 0 _
        · rw [kvGet_kvSet_ne _ _ _ _ hu] at hg2
          exact h u2 q2 hg2
    · rw [deleteFile_forbidden s u fid fref hgg ho]
      exact h

/-- C8 -/
theorem storage_used_never_negative (s : Vault) (ops : List Op)
    (h : quotasNonneg s) : quotasNonneg (List.foldl applyOp s ops) := by
  induction ops generalizing s with
  | nil => exact h
  | cons op rest ih =>
    rw [List.foldl_cons]
    apply ih
    cases op with
    | upload req => exact uploadFiles_preserves_quotasNonneg req s h
    | remove u2 fid => exact deleteFile_preserves_quotasNonneg u2 fid s h

theorem storage_used_never_negative_witness :
    kvGet (List.foldl applyOp sFresh opsW).quotas "u1" = some ⟨0, 100⟩ ∧
    (0 : Int) ≤ (Quota.mk 0 100).storage_used :=
  ⟨by decide,
    storage_used_never_negative sFresh opsW
      (by
        intro u q hq
        simp only [sFresh, kvGet] at hq
        by_cases hu : "u1" = u
        · rw [if_pos hu] at hq
          injection hq with h2
          rw [← h2]
        · rw [if_neg hu] at hq
          exact absurd hq (by simp))
      "u1" ⟨0, 100⟩ (by decide)⟩

theorem refsToHash_cons (p : String × FileRef) (rest : List (String × FileRef))
    (h : String) :
    refsToHash (p :: rest) h =
      if p.2.hash = h then refsToHash rest h + 1 else refsToHash rest h := rfl

theorem refsToHash_pos (l : List (String × FileRef)) (fid : String)
    (v : FileRef) (h : String) (hg : kvGet l fid = some v) (hh : v.hash = h) :
    1 ≤ refsToHash l h := by
  induction l with
  | nil => simp [kvGet] at hg
  | cons p rest ih =>
    by_cases hp : p.1 = fid
    · have hv : p.2 = v := by simpa [kvGet, hp] using hg
      rw [refsToHash_cons, if_pos (by rw [hv, hh])]
      omega
    · have hg2 : kvGet rest fid = some v := by simpa [kvGet, hp] using hg
      have := ih hg2
      rw [refsToHash_cons]
      split_ifs <;> omega

theorem kvDel_not_mem {α : Type} (l : List (String × α)) (k : String)
    (h : k ∉ l.map Prod.fst) : kvDel l k = l := by
  induction l with
  | nil => rfl
  | cons p rest ih =>
    simp only [List.map_cons, List.mem_cons] at h
    push_neg at h
    obtain ⟨h1, h2⟩ := h
    unfold kvDel
    rw [if_neg (fun hc => h1 hc.symm), ih h2]

theorem refsToHash_kvDel (l : List (String × FileRef)) (fid : String)
    (v : FileRef) (h : String)
    (hnd : (l.map Prod.fst).Nodup)
    (hg : kvGet l fid = some v) (hh : v.hash = h) :
    refsToHash (kvDel l fid) h + 1 = refsToHash l h := by
  induction l with
  | nil => simp [kvGet] at hg
  | cons p rest ih =>
    have hnd0 : p.1 ∉ rest.map Prod.fst ∧ (rest.map Prod.fst).Nodup := by
      rw [List.map_cons] at hnd
      exact List.nodup_cons.mp hnd
    by_cases hp : p.1 = fid
    · have hv : p.2 = v := by simpa [kvGet, hp] using hg
      have hnm : fid ∉ rest.map Prod.fst := hp ▸ hnd0.1
      unfold kvDel
      rw [if_pos hp, kvDel_not_mem rest fid hnm, refsToHash_cons,
        if_pos (by rw [hv, hh])]
    · have hg2 : kvGet rest fid = some v := by simpa [kvGet, hp] using hg
      have hrec := ih hnd0.2 hg2
      unfold kvDel
      rw [if_neg hp, refsToHash_cons, refsToHash_cons]
      split_ifs <;> omega

theorem deleteFile_reclaim (s : Vault) (u fileId : String) (fref : FileRef)
    (fd : FileRecord)
    (hg : kvGet s.fileRefs fileId = some fref) (ho : fref.uploader_id = u)
    (hfd : kvGet s.files fref.hash = some fd)
    (hrc : fd.reference_count - 1 ≤ 0) :
    (deleteFile u fileId s).2.storage
      = s.storage.filter (fun x => x ≠ fd.storage_path) ∧
    (deleteFile u fileId s).2.files = kvDel s.files fref.hash := by
  have hc3 : fd.reference_count ≤ 1 := by omega
  unfold deleteFile
  rw [hg]
  simp only [ho, ne_eq, not_true_eq_false, if_false, hfd]
  cases hq : kvGet s.quotas u with
  | none => simp [hq, hc3]
  | some q2 => simp [hq, hc3]

/-- C5 -/
theorem reclamation_safety (s : Vault) (u fileId : String) (fref : FileRef)
    (fd : FileRecord)
    (hnd : (s.fileRefs.map Prod.fst).Nodup)
    (hg : kvGet s.fileRefs fileId = some fref)
    (ho : fref.uploader_id = u)
    (hfd : kvGet s.files fref.hash = some fd)
    (hpath : fd.storage_path = fref.hash)
    (hmem : fref.hash ∈ s.storage)
    (hinv : fd.reference_count = (refsToHash s.fileRefs fref.hash : Int)) :
    (deleteFile u fileId s).1 = DeleteResult.success ∧
    ((fref.hash ∉ (deleteFile u fileId s).2.storage ∧
        kvGet (deleteFile u fileId s).2.files fref.hash = none)
      ↔ fd.reference_count - 1 = 0) ∧
    (refsToHash (deleteFile u fileId s).2.fileRefs fref.hash ≠ 0 →
      fref.hash ∈ (deleteFile u fileId s).2.storage) := by
  have hpos : 1 ≤ refsToHash s.fileRefs fref.hash :=
    refsToHash_pos s.fileRefs fileId fref fref.hash hg rfl
  have hfR : (deleteFile u fileId s).2.fileRefs = kvDel s.fileRefs fileId :=
    (deleteFile_shape s u fileId fref hg ho).2
  have hcount : refsToHash (kvDel s.fileRefs fileId) fref.hash + 1
      = refsToHash s.fileRefs fref.hash :=
    refsToHash_kvDel s.fileRefs fileId fref fref.hash hnd hg rfl
  refine ⟨(deleteFile_shape s u fileId fref hg ho).1, ?_, ?_⟩
  · by_cases hrc : fd.reference_count - 1 ≤ 0
    · obtain ⟨hst, hfi⟩ := deleteFile_reclaim s u fileId fref fd hg ho hfd hrc
      constructor
      · intro _
        omega
      · intro _
        constructor
        · rw [hst]
          intro hmem2
          simp only [List.mem_filter, decide_eq_true_eq] at hmem2
          exact hmem2.2 (by rw [hpath])
        · rw [hfi]
          exact kvGet_kvDel_self _ _
    · obtain ⟨hst, hfi, hqt⟩ := deleteFile_keep s u fileId fref fd hg ho hfd hrc
      constructor
      · intro hcon
        exfalso
        rw [hst] at hcon
        exact hcon.1 hmem
      · intro h0
        exact absurd h0 (by omega)
  · intro hne
    by_cases hrc : fd.reference_count - 1 ≤ 0
    · exfalso
      rw [hfR] at hne
      omega
    · obtain ⟨hst, hfi, hqt⟩ := deleteFile_keep s u fileId fref fd hg ho hfd hrc
      rw [hst]
      exact hmem

theorem reclamation_safety_witness :
    (sB.fileRefs.map Prod.fst).Nodup ∧
    kvGet sB.fileRefs "u1:000102:0" = some refU1 ∧
    refU1.uploader_id = "u1" ∧
    kvGet sB.files refU1.hash = some recB2 ∧
    recB2.storage_path = refU1.hash ∧
    refU1.hash ∈ sB.storage ∧
    recB2.reference_count = (refsToHash sB.fileRefs refU1.hash : Int) ∧
    ((deleteFile "u1" "u1:000102:0" sB).1 = DeleteResult.success ∧
      ((refU1.hash ∉ (deleteFile "u1" "u1:000102:0" sB).2.storage ∧
          kvGet (deleteFile "u1" "u1:000102:0" sB).2.files refU1.hash = none)
        ↔ recB2.reference_count - 1 = 0) ∧
      (refsToHash (deleteFile "u1" "u1:000102:0" sB).2.fileRefs refU1.hash ≠ 0 →
        refU1.hash ∈ (deleteFile "u1" "u1:000102:0" sB).2.storage)) :=
  ⟨by decide, rfl, rfl, rfl, rfl, by decide, by decide,
    reclamation_safety sB "u1" "u1:000102:0" refU1 recB2 (by decide) rfl rfl rfl
      rfl (by decide) (by decide)⟩

end Vault4

